import Mathlib

/-!
Verification development for the auto-backport orchestration script
(.github/scripts/auto-backport.py).

The Python source is shallowly embedded: pure string manipulation is
translated to structural recursion over character lists, the GitHub and
git side effects are represented by explicit environment records, and the
sequential driver loop becomes a recursive function producing a trace of
per-target runs.  Each embedded definition is named after the source
function it translates.
-/

/-- Character-level test that the list `s` starts with the list `pre`.
Embeds Python str.startswith used in get_pr_commits. -/
def startsWithChars : List Char → List Char → Bool
  | _, [] => true
  | [], _ :: _ => false
  | a :: as, b :: bs => a == b && startsWithChars as bs

/-- Fuel-driven replacement of every occurrence of `pat` by `rep`.
The fuel is the length of the subject string, which bounds the number of
steps; each step consumes at least one character of the subject. -/
def replaceCharsFuel (pat rep : List Char) : Nat → List Char → List Char
  | 0, s => s
  | _ + 1, [] => []
  | fuel + 1, c :: cs =>
    if startsWithChars (c :: cs) pat then
      rep ++ replaceCharsFuel pat rep fuel ((c :: cs).drop pat.length)
    else
      c :: replaceCharsFuel pat rep fuel cs

/-- Embeds Python str.replace (replace all occurrences). -/
def strReplace (s pat rep : String) : String :=
  ⟨replaceCharsFuel pat.data rep.data s.data.length s.data⟩

/-- Embeds Python message.splitlines()[0]: the prefix of the string up to
the first newline character. -/
def firstLine (s : String) : String :=
  ⟨s.data.takeWhile (fun c => c != '\n')⟩

/-- Embeds Python str.startswith on strings. -/
def strStartsWith (s pre : String) : Bool :=
  startsWithChars s.data pre.data

/-- Character-level substring test. -/
def containsSub : List Char → List Char → Bool
  | [], sub => sub.isEmpty
  | c :: cs, sub => startsWithChars (c :: cs) sub || containsSub cs sub

/-- Embeds the Python membership test `needle in str(e)`. -/
def containsSubstring (s sub : String) : Bool := containsSub s.data sub.data

/-- Splits a character list at every dot, embedding the release-component
split performed by packaging version parsing on dotted numeric versions. -/
def splitOnDot : List Char → List (List Char)
  | [] => [[]]
  | c :: cs =>
    match splitOnDot cs, c == '.' with
    | r, true => [] :: r
    | [], false => [[c]]
    | g :: gs, false => (c :: g) :: gs

/-- Decimal value of a digit string (48 is the code point of the zero
digit). -/
def charsToNat (l : List Char) : Nat :=
  l.foldl (fun acc c => acc * 10 + (c.toNat - 48)) 0

/-- A commit as seen through the GitHub API: identifier, full message and
parent identifiers. -/
structure Commit where
  sha : String
  message : String
  parents : List String
  deriving DecidableEq, Repr

/-- An issue event, used by get_pr_commits for pull requests that were
closed without merging. -/
structure IssueEvent where
  event : String
  commit_id : String
  deriving DecidableEq, Repr

/-- The fields of a GitHub pull request consumed by the script.  The
`commits` field lists the authored commits returned by pr.get_commits()
and `issue_events` the events returned by pr.get_issue_events(). -/
structure PullRequest where
  number : Nat
  title : String
  body : String
  user : String
  labels : List String
  merged : Bool
  state : String
  merge_commit_sha : String
  commits : List Commit
  issue_events : List IssueEvent
  deriving DecidableEq, Repr

/-- The read-only repository queries used by get_pr_commits:
repo.get_commit(sha), repo.compare(a, b).commits and
repo.get_commits(sha=branch). -/
structure Repo where
  get_commit : String → Commit
  compare_commits : String → String → List Commit
  get_commits : String → List Commit

/-- The candidate commits scanned by the title-matching loop of
get_pr_commits: the compare range when start_commit is given, otherwise
the full history of the stable branch. -/
def promotion_window (repo : Repo) (stable_branch : String) : Option String → List Commit
  | some start_commit => repo.compare_commits start_commit stable_branch
  | none => repo.get_commits stable_branch

/-- Embedding of get_pr_commits from auto-backport.py.  For a merged pull
request whose merge commit has more than one parent it returns just the
merge commit; otherwise it scans the promotion window and collects, for
each authored commit in order, every candidate whose message starts with
the first line of that commit message.  For a pull request closed without
merging it returns the commit ids recorded on closed issue events. -/
def get_pr_commits (repo : Repo) (pr : PullRequest) (stable_branch : String)
    (start_commit : Option String) : List String :=
  if pr.merged then
    let merge_commit := repo.get_commit pr.merge_commit_sha
    if merge_commit.parents.length > 1 then
      [pr.merge_commit_sha]
    else
      let promoted_commits := promotion_window repo stable_branch start_commit
      pr.commits.flatMap (fun commit =>
        promoted_commits.filterMap (fun promoted_commit =>
          if strStartsWith promoted_commit.message (firstLine commit.message) then
            some promoted_commit.sha
          else
            none))
  else if pr.state == "closed" then
    pr.issue_events.filterMap (fun event =>
      if event.event == "closed" then some event.commit_id else none)
  else
    []

/-- Embedding of extract_version inside sort_backport_labels: strip the
backport marker and parse the remainder as a dotted numeric version. -/
def extract_version (label : String) : List Nat :=
  (splitOnDot (strReplace label "backport/" "").data).map charsToNat

/-- Release tuples are compared after discarding trailing zero components,
as packaging version comparison does. -/
def dropTrailingZeros (l : List Nat) : List Nat :=
  (l.reverse.dropWhile (fun x => x == 0)).reverse

/-- Lexicographic comparison of numeric release components. -/
def verLeCore : List Nat → List Nat → Bool
  | [], _ => true
  | _ :: _, [] => false
  | a :: as, b :: bs =>
    decide (a < b) || (decide (a = b) && verLeCore as bs)

/-- Numeric semantic-version comparison of parsed release tuples. -/
def version_le (a b : List Nat) : Bool :=
  verLeCore (dropTrailingZeros a) (dropTrailingZeros b)

/-- Ordering used by sort_backport_labels: `a` comes before `b` when the
version parsed from `a` is at least the version parsed from `b`
(descending numeric order, Python sorted with reverse=True). -/
def backportBefore (a b : String) : Prop :=
  version_le (extract_version b) (extract_version a) = true

instance : DecidableRel backportBefore := fun a b => by
  unfold backportBefore
  infer_instance

/-- Embedding of sort_backport_labels: sort backport markers by parsed
version, latest first. -/
def sort_backport_labels (backport_labels : List String) : List String :=
  List.insertionSort backportBefore backport_labels

/-- Severity of a log record emitted by the script. -/
inductive LogLevel where
  | warning
  | errorLog
  deriving DecidableEq, Repr

/-- A backport pull request as created by create_pull_request and later
read back through the GitHub API.  The `commits` field is what
get_commits() returns on the created pull request (the commits of the
pushed branch, as recorded by the platform). -/
structure BackportPR where
  title : String
  body : String
  base : String
  draft : Bool
  commits : List Commit
  labels : List String
  assignees : List String
  comments : List String
  deriving DecidableEq, Repr

/-- Embedding of the priority-label loop of create_pull_request.  The
Python source iterates over the set literal of the two priority labels;
because CPython string hashing is randomized, the iteration order of that
set is not fixed, so the order is an explicit parameter here.  The loop
appends the first label of the iteration that the parent pull request
carries, together with the routing label, and breaks. -/
def priority_labels_to_add : List String → List String → List String
  | [], _ => []
  | label :: rest, parent_pr_labels =>
    if parent_pr_labels.contains label then
      [label, "force_on_cloud"]
    else
      priority_labels_to_add rest parent_pr_labels

/-- Embeds the comment posted on a conflicted (draft) backport pull
request. -/
def conflict_comment (pr : PullRequest) : String :=
  "@" ++ pr.user ++ " - This PR has conflicts, therefore it was moved to draft \n" ++
    "Please resolve them and mark this PR as ready for review"

/-- Embeds the body synthesized for the backport pull request: original
body, one provenance line per replayed commit, then the parent
reference. -/
def backport_pr_body (pr : PullRequest) (commits : List String) : String :=
  pr.body ++ "\n\n" ++
    String.join (commits.map
      (fun commit => "- (cherry picked from commit " ++ commit ++ ")\n\n")) ++
    "Parent PR: #" ++ toString pr.number

/-- Embedding of create_pull_request from auto-backport.py.  The
`creation` argument is the outcome of repo.create_pull: on success it
carries the commits the platform records on the new pull request, on
failure the exception text.  The result pairs the value returned to the
caller with the failure log record; a creation failure returns none to
the caller, logged as a warning when the text reports an already existing
pull request and as an error otherwise. -/
def create_pull_request (creation : Except String (List Commit))
    (priority_iteration : List String) (pr : PullRequest)
    (base_branch_name backport_pr_title : String)
    (commits : List String) (is_draft : Bool) :
    Option BackportPR × Option LogLevel :=
  match creation with
  | .ok recorded_commits =>
    let labels_to_add := priority_labels_to_add priority_iteration pr.labels
    let labels_to_add := labels_to_add ++ (if is_draft then ["conflicts"] else [])
    (some
      { title := backport_pr_title
        body := backport_pr_body pr commits
        base := base_branch_name
        draft := is_draft
        commits := recorded_commits
        labels := labels_to_add
        assignees := [pr.user]
        comments := if is_draft then [conflict_comment pr] else [] }, none)
  | .error e =>
    (none,
      some (if containsSubstring e "A pull request already exists" then
        LogLevel.warning
      else
        LogLevel.errorLog))

/-- Outcome of one cherry-pick step as driven by the git environment:
the pick applies cleanly, or it raises a conflict and the staged
continuation succeeds, or it raises a conflict and the continuation
raises again. -/
inductive PickResult where
  | clean
  | conflictRecovered
  | conflictStuck
  deriving DecidableEq, Repr

/-- Embedding of the replay loop of backport: cherry-pick each commit in
order; on a conflict stage everything, force-complete the step, set the
draft flag and continue; if the forced completion itself raises, the
error escapes the loop (modelled as none).  On completion it returns the
attempted commits (the branch content) and the draft flag. -/
def replayRun (pick : String → PickResult) :
    List String → Bool → Option (List String × Bool)
  | [], is_draft => some ([], is_draft)
  | commit :: rest, is_draft =>
    match pick commit with
    | .clean =>
      (replayRun pick rest is_draft).map (fun r => (commit :: r.1, r.2))
    | .conflictRecovered =>
      (replayRun pick rest true).map (fun r => (commit :: r.1, r.2))
    | .conflictStuck => none

/-- External effects available to one invocation of backport: whether the
clone and branch creation succeed, the per-commit cherry-pick outcomes,
whether the push succeeds, the outcome of pull-request creation, and the
iteration order of the priority-label set. -/
structure TargetEnv where
  clone_ok : Bool
  pick : String → PickResult
  push_ok : Bool
  creation : Except String (List Commit)
  priority_iteration : List String

/-- Embedding of backport from auto-backport.py.  Any git failure before
or during the push (clone, branch creation, unrecoverable cherry-pick
continuation, push) is caught by the run-level handler and yields none;
otherwise create_pull_request is called with the accumulated draft
flag. -/
def backport (env : TargetEnv) (pr : PullRequest) (version : String)
    (commits : List String) (backport_base_branch : String) : Option BackportPR :=
  let backport_pr_title := "[Backport " ++ version ++ "] " ++ pr.title
  if env.clone_ok then
    match replayRun env.pick commits false with
    | some (_, is_draft) =>
      if env.push_ok then
        (create_pull_request env.creation env.priority_iteration pr
          backport_base_branch backport_pr_title commits is_draft).1
      else
        none
    | none => none
  else
    none

/-- Embedding of get_commits_from_newer_release: the commit identifiers
recorded on the previous backport pull request, in order. -/
def get_commits_from_newer_release (previous_backport_pr : BackportPR) : List String :=
  previous_backport_pr.commits.map (fun commit => commit.sha)

/-- One entry of the per-target trace of the driver loop in main: the
marker processed, the commit list handed to backport, and the returned
pull request (none on failure). -/
structure TargetRun where
  label : String
  usedCommits : List String
  result : Option BackportPR
  deriving DecidableEq, Repr

/-- Embedding of the per-target loop of main.  The arguments `i` and
`previous_backport_pr` carry the enumerate index and the
previous-backport state; for every marker the loop picks the commits from
the previous backport pull request when the index is positive and such a
pull request exists, invokes backport, and updates the state only when a
pull request was produced. -/
def process_backports (envs : Nat → TargetEnv) (pr : PullRequest)
    (commits : List String) :
    List String → Nat → Option BackportPR → List TargetRun
  | [], _, _ => []
  | backport_label :: rest, i, previous_backport_pr =>
    let version := strReplace backport_label "backport/" ""
    let backport_base_branch := strReplace backport_label "backport/" "next-"
    let backport_commits :=
      match previous_backport_pr with
      | some p => if 0 < i then get_commits_from_newer_release p else commits
      | none => commits
    let backport_pr := backport (envs i) pr version backport_commits backport_base_branch
    { label := backport_label, usedCommits := backport_commits, result := backport_pr } ::
      process_backports envs pr commits rest (i + 1)
        (match backport_pr with
         | some p => some p
         | none => previous_backport_pr)

/-- The driver loop as started by main for one pull request: enumerate
the sorted markers from index zero with no previous backport. -/
def run_backports (envs : Nat → TargetEnv) (pr : PullRequest)
    (commits : List String) (sorted_labels : List String) : List TargetRun :=
  process_backports envs pr commits sorted_labels 0 none

/-- The per-pull-request pipeline of main: resolve the commit set with
get_pr_commits, sort the backport markers, then drive the per-target
loop. -/
def main_process_pr (repo : Repo) (envs : Nat → TargetEnv) (pr : PullRequest)
    (stable_branch : String) (start_commit : Option String)
    (backport_labels : List String) : List TargetRun :=
  run_backports envs pr (get_pr_commits repo pr stable_branch start_commit)
    (sort_backport_labels backport_labels)

/-- Totality of the lexicographic release comparison. -/
def verLeCore_le_total : ∀ a b : List Nat, verLeCore a b = true ∨ verLeCore b a = true
  | [], _ => Or.inl rfl
  | _ :: _, [] => Or.inr rfl
  | a :: as, b :: bs => by
    rcases Nat.lt_trichotomy a b with h | h | h
    · refine Or.inl ?_
      simp only [verLeCore, Bool.or_eq_true, decide_eq_true_eq]
      exact Or.inl h
    · subst h
      rcases verLeCore_le_total as bs with ih | ih
      · refine Or.inl ?_
        simp only [verLeCore, Bool.or_eq_true, Bool.and_eq_true, decide_eq_true_eq]
        exact Or.inr ⟨trivial, ih⟩
      · refine Or.inr ?_
        simp only [verLeCore, Bool.or_eq_true, Bool.and_eq_true, decide_eq_true_eq]
        exact Or.inr ⟨trivial, ih⟩
    · refine Or.inr ?_
      simp only [verLeCore, Bool.or_eq_true, decide_eq_true_eq]
      exact Or.inl h

/-- Transitivity of the lexicographic release comparison. -/
def verLeCore_le_trans :
    ∀ a b c : List Nat, verLeCore a b = true → verLeCore b c = true → verLeCore a c = true
  | [], _, _, _, _ => rfl
  | _ :: _, [], _, h1, _ => by simp [verLeCore] at h1
  | _ :: _, _ :: _, [], _, h2 => by simp [verLeCore] at h2
  | a :: as, b :: bs, c :: cs, h1, h2 => by
    simp only [verLeCore, Bool.or_eq_true, Bool.and_eq_true, decide_eq_true_eq] at h1 h2 ⊢
    rcases h1 with h1 | ⟨rfl, h1⟩
    · rcases h2 with h2 | ⟨rfl, h2⟩
      · exact Or.inl (Nat.lt_trans h1 h2)
      · exact Or.inl h1
    · rcases h2 with h2 | ⟨rfl, h2⟩
      · exact Or.inl h2
      · exact Or.inr ⟨rfl, verLeCore_le_trans as bs cs h1 h2⟩

instance : IsTotal String backportBefore :=
  ⟨fun a b => by
    simp only [backportBefore, version_le]
    exact verLeCore_le_total _ _⟩

instance : IsTrans String backportBefore :=
  ⟨fun a b c hab hbc => by
    simp only [backportBefore, version_le] at hab hbc ⊢
    exact verLeCore_le_trans _ _ _ hbc hab⟩

/-- Pull-request creation outcome recording the given commits on the new
pull request. -/
def okCreation (shas : List String) : Except String (List Commit) :=
  .ok (shas.map (fun s => { sha := s, message := "", parents := [] }))

/-- A minimal parent pull request used by the concrete scenarios. -/
def basePR : PullRequest :=
  { number := 1, title := "t", body := "", user := "u", labels := [],
    merged := true, state := "closed", merge_commit_sha := "M",
    commits := [], issue_events := [] }

/-- Environment in which every git and GitHub operation succeeds and the
created pull request records the commits A and X. -/
def envOk : TargetEnv :=
  { clone_ok := true, pick := fun _ => .clean, push_ok := true,
    creation := okCreation ["A", "X"], priority_iteration := ["P0", "P1"] }

/-- Environment in which the clone fails, so backport returns none. -/
def envFail : TargetEnv :=
  { envOk with clone_ok := false }

/-- Per-target environments for the chain counterexample: the target at
index one fails, the others succeed. -/
def envsC1 : Nat → TargetEnv :=
  fun i => if i = 1 then envFail else envOk

/-- Per-target environments in which every target fails. -/
def envsAllFail : Nat → TargetEnv :=
  fun _ => envFail

/-- Environment whose created pull request records the single commit X
(standing for a replay that picked up a conflict-resolution commit). -/
def envX : TargetEnv :=
  { clone_ok := true, pick := fun _ => .clean, push_ok := true,
    creation := okCreation ["X"], priority_iteration := ["P0", "P1"] }

/-- Per-target environments for the chaining witness: every target
succeeds and records commit X. -/
def envsC2 : Nat → TargetEnv :=
  fun _ => envX

/-- Repository whose merge commit M has two parents. -/
def repoMulti : Repo :=
  { get_commit := fun _ => { sha := "M", message := "m", parents := ["p1", "p2"] },
    compare_commits := fun _ _ => [],
    get_commits := fun _ => [] }

/-- Expected first backport pull request of the chaining witness. -/
def bp0C2 : BackportPR :=
  { title := "[Backport 5.2] t",
    body := "\n\n- (cherry picked from commit M)\n\nParent PR: #1",
    base := "next-5.2", draft := false,
    commits := [{ sha := "X", message := "", parents := [] }],
    labels := [], assignees := ["u"], comments := [] }

/-- Expected second backport pull request of the chaining witness. -/
def bp1C2 : BackportPR :=
  { title := "[Backport 5.1] t",
    body := "\n\n- (cherry picked from commit X)\n\nParent PR: #1",
    base := "next-5.1", draft := false,
    commits := [{ sha := "X", message := "", parents := [] }],
    labels := [], assignees := ["u"], comments := [] }

/-- Parent pull request with two authored commits, merged as a
multi-parent merge. -/
def prC3 : PullRequest :=
  { basePR with
      commits := [{ sha := "c1", message := "one", parents := [] },
                  { sha := "c2", message := "two", parents := [] }] }

/-- Repository of the squash-merge scenarios: the merge commit has one
parent and the stable branch holds one promoted candidate per authored
commit. -/
def repoC4 : Repo :=
  { get_commit := fun _ => { sha := "M", message := "m", parents := ["p"] },
    compare_commits := fun _ _ => [],
    get_commits := fun _ =>
      [{ sha := "S1", message := "fix alpha (#1)", parents := ["q1"] },
       { sha := "S2", message := "fix beta (#2)", parents := ["q2"] }] }

/-- Parent pull request of the squash-merge recovery witness: two
authored commits with distinct first lines. -/
def prC4 : PullRequest :=
  { basePR with
      commits := [{ sha := "c1", message := "fix alpha", parents := [] },
                  { sha := "c2", message := "fix beta", parents := [] }] }

/-- Repository of the duplicate counterexample: a single promoted
candidate whose message extends both commit titles. -/
def repoC5 : Repo :=
  { get_commit := fun _ => { sha := "M", message := "m", parents := ["p"] },
    compare_commits := fun _ _ => [],
    get_commits := fun _ =>
      [{ sha := "S", message := "fix bug details", parents := ["q"] }] }

/-- Parent pull request of the duplicate counterexample: the first line
of the first commit is a prefix of the message of the promoted candidate
matched by the second commit as well. -/
def prC5 : PullRequest :=
  { basePR with
      commits := [{ sha := "c1", message := "fix", parents := [] },
                  { sha := "c2", message := "fix bug", parents := [] }] }

/-- Replay environment of the conflict-continuation witness: the second
of three commits conflicts but its forced completion succeeds. -/
def envC7 : TargetEnv :=
  { clone_ok := true,
    pick := fun c => if c == "c2" then .conflictRecovered else .clean,
    push_ok := true, creation := okCreation ["A"],
    priority_iteration := ["P0", "P1"] }

/-- Replay environment of the stuck-continuation witness: the second of
three commits conflicts and its forced completion raises again. -/
def envC10 : TargetEnv :=
  { clone_ok := true,
    pick := fun c => if c == "c2" then .conflictStuck else .clean,
    push_ok := true, creation := okCreation ["A"],
    priority_iteration := ["P0", "P1"] }

/-- Parent pull request carrying both top-severity markers. -/
def prC8 : PullRequest :=
  { basePR with labels := ["P0", "P1"] }

/-- Completed replays: when no commit gets stuck, the whole commit list is
attempted and the draft flag records whether any pick conflicted. -/
theorem replayRun_eq_of_no_stuck (pick : String → PickResult) :
    ∀ (commits : List String) (d : Bool),
      (∀ c ∈ commits, pick c ≠ PickResult.conflictStuck) →
      replayRun pick commits d =
        some (commits, d || commits.any (fun c => decide (pick c = PickResult.conflictRecovered))) := by
  intro commits
  induction commits with
  | nil => intro d _; simp [replayRun]
  | cons c cs ih =>
    intro d h
    have hcs : ∀ x ∈ cs, pick x ≠ PickResult.conflictStuck :=
      fun x hx => h x (List.mem_cons_of_mem c hx)
    cases hc : pick c with
    | clean =>
      simp only [replayRun, hc, ih d hcs, Option.map_some]
      simp [List.any_cons, hc]
    | conflictRecovered =>
      simp only [replayRun, hc, ih true hcs, Option.map_some]
      simp [List.any_cons, hc]
    | conflictStuck => exact absurd hc (h c (List.mem_cons_self c cs))

/-- A stuck conflict continuation anywhere in the commit list aborts the
replay loop. -/
theorem replayRun_none_of_stuck (pick : String → PickResult) :
    ∀ (commits : List String) (d : Bool),
      (∃ c ∈ commits, pick c = PickResult.conflictStuck) →
      replayRun pick commits d = none := by
  intro commits
  induction commits with
  | nil => intro d h; simp at h
  | cons c cs ih =>
    intro d h
    cases hc : pick c with
    | clean =>
      obtain ⟨x, hx, hxs⟩ := h
      rcases List.mem_cons.mp hx with rfl | hx'
      · exact absurd hxs (by simp [hc])
      · simp [replayRun, hc, ih d ⟨x, hx', hxs⟩]
    | conflictRecovered =>
      obtain ⟨x, hx, hxs⟩ := h
      rcases List.mem_cons.mp hx with rfl | hx'
      · exact absurd hxs (by simp [hc])
      · simp [replayRun, hc, ih true ⟨x, hx', hxs⟩]
    | conflictStuck => simp [replayRun, hc]

/-- C3: for a merged change whose merge commit has more than one parent,
the commit resolver returns exactly the one identifier of the merge
commit, whatever the underlying authored commits are. -/
theorem C3_multi_parent_merge_single_identifier (repo : Repo) (pr : PullRequest)
    (stable_branch : String) (start_commit : Option String)
    (hm : pr.merged = true)
    (hp : 1 < (repo.get_commit pr.merge_commit_sha).parents.length) :
    get_pr_commits repo pr stable_branch start_commit = [pr.merge_commit_sha] := by
  simp [get_pr_commits, hm, hp]

/-- Witness for C3 at a concrete two-commit pull request merged through a
two-parent merge commit. -/
theorem C3_multi_parent_merge_single_identifier_witness :
    prC3.merged = true ∧
    1 < (repoMulti.get_commit prC3.merge_commit_sha).parents.length ∧
    get_pr_commits repoMulti prC3 "master" none = ["M"] :=
  ⟨rfl, by decide,
    C3_multi_parent_merge_single_identifier repoMulti prC3 "master" none rfl (by decide)⟩

/-- C6: sort_backport_labels returns a permutation of the markers that is
sorted descending under numeric semantic-version comparison of the parsed
version suffixes, and on the markers 5.2, 5.10 and 5.4 it yields 5.10,
5.4, 5.2 (numeric order, not lexicographic). -/
theorem C6_sort_backport_labels_descending :
    (∀ backport_labels : List String,
      (sort_backport_labels backport_labels).Perm backport_labels ∧
      List.Sorted backportBefore (sort_backport_labels backport_labels)) ∧
    sort_backport_labels ["backport/5.2", "backport/5.10", "backport/5.4"] =
      ["backport/5.10", "backport/5.4", "backport/5.2"] := by
  refine ⟨fun ls => ⟨List.perm_insertionSort _ ls, List.sorted_insertionSort _ ls⟩, ?_⟩
  decide

/-- C7: when clone and push succeed, no commit is unrecoverably stuck and
at least one commit conflicts, the replay loop attempts every commit,
finishes with the draft flag set, and any pull request produced by
backport is a draft (conflict flag). -/
theorem C7_conflict_sets_draft_and_continues (env : TargetEnv) (pr : PullRequest)
    (version : String) (commits : List String) (backport_base_branch : String)
    (hclone : env.clone_ok = true) (hpush : env.push_ok = true)
    (hnostuck : ∀ c ∈ commits, env.pick c ≠ PickResult.conflictStuck)
    (hconflict : ∃ c ∈ commits, env.pick c = PickResult.conflictRecovered) :
    replayRun env.pick commits false = some (commits, true) ∧
    ∀ bp, backport env pr version commits backport_base_branch = some bp →
      bp.draft = true := by
  have hany : commits.any (fun c => decide (env.pick c = PickResult.conflictRecovered)) = true := by
    rw [List.any_eq_true]
    obtain ⟨c, hc, hcr⟩ := hconflict
    exact ⟨c, hc, by simp [hcr]⟩
  have hrep : replayRun env.pick commits false = some (commits, true) := by
    rw [replayRun_eq_of_no_stuck env.pick commits false hnostuck, hany]
    rfl
  refine ⟨hrep, fun bp hbp => ?_⟩
  simp only [backport, hclone, hrep, hpush, if_true] at hbp
  cases hcr : env.creation with
  | ok recorded =>
    rw [hcr] at hbp
    simp only [create_pull_request, Option.some.injEq] at hbp
    rw [← hbp]
  | error e =>
    rw [hcr] at hbp
    simp [create_pull_request] at hbp

/-- Witness for C7: three commits of which the middle one conflicts
recoverably. -/
theorem C7_conflict_sets_draft_and_continues_witness :
    envC7.clone_ok = true ∧ envC7.push_ok = true ∧
    (∀ c ∈ ["c1", "c2", "c3"], envC7.pick c ≠ PickResult.conflictStuck) ∧
    (∃ c ∈ ["c1", "c2", "c3"], envC7.pick c = PickResult.conflictRecovered) ∧
    (replayRun envC7.pick ["c1", "c2", "c3"] false = some (["c1", "c2", "c3"], true) ∧
      ∀ bp, backport envC7 basePR "5.2" ["c1", "c2", "c3"] "next-5.2" = some bp →
        bp.draft = true) :=
  ⟨rfl, rfl, by decide, by decide,
    C7_conflict_sets_draft_and_continues envC7 basePR "5.2" ["c1", "c2", "c3"] "next-5.2"
      rfl rfl (by decide) (by decide)⟩

/-- C10: if some commit in the list conflicts and its forced completion
raises again, the error escapes the per-commit handler, the run-level
handler returns none, and no pull request is created for that target. -/
theorem C10_stuck_continuation_aborts_run (env : TargetEnv) (pr : PullRequest)
    (version : String) (commits : List String) (backport_base_branch : String)
    (h : ∃ c ∈ commits, env.pick c = PickResult.conflictStuck) :
    backport env pr version commits backport_base_branch = none := by
  cases hcl : env.clone_ok <;>
    simp [backport, hcl, replayRun_none_of_stuck env.pick commits false h]

/-- Witness for C10: three commits of which the middle one gets stuck. -/
theorem C10_stuck_continuation_aborts_run_witness :
    (∃ c ∈ ["c1", "c2", "c3"], envC10.pick c = PickResult.conflictStuck) ∧
    backport envC10 basePR "5.2" ["c1", "c2", "c3"] "next-5.2" = none :=
  ⟨by decide,
    C10_stuck_continuation_aborts_run envC10 basePR "5.2" ["c1", "c2", "c3"] "next-5.2"
      (by decide)⟩

/-- C8: code-bug demonstration.  The source iterates the Python set
literal of the two priority labels and breaks at the first one carried by
the parent pull request, while its comment states that only the highest
priority label is applied.  CPython string hashing is randomized, so the
set can iterate P1 before P0; under that order a parent carrying both
markers gets P1 (with the routing label) propagated instead of the
highest marker P0. -/
theorem C8_priority_label_depends_on_set_order :
    prC8.labels = ["P0", "P1"] ∧
    ((create_pull_request (Except.ok []) ["P1", "P0"] prC8 "next-5.2"
        "[Backport 5.2] t" ["A"] false).1.map BackportPR.labels) =
      some ["P1", "force_on_cloud"] := by
  exact ⟨rfl, by decide⟩

/-- C9: a pull-request creation failure returns none to the caller; the
failure is logged as a warning when the exception text reports an already
existing pull request and as an error otherwise. -/
theorem C9_creation_failure_returns_none (e : String)
    (priority_iteration : List String) (pr : PullRequest)
    (base_branch_name backport_pr_title : String)
    (commits : List String) (is_draft : Bool) :
    (create_pull_request (Except.error e) priority_iteration pr
      base_branch_name backport_pr_title commits is_draft).1 = none ∧
    (create_pull_request (Except.error e) priority_iteration pr
      base_branch_name backport_pr_title commits is_draft).2 =
      some (if containsSubstring e "A pull request already exists" then
        LogLevel.warning
      else
        LogLevel.errorLog) :=
  ⟨rfl, rfl⟩

/-- C5 counterexample: one promoted candidate S whose message starts with
the first lines of two different authored commits is collected twice, so
the resolver output has a duplicate identifier. -/
theorem C5_duplicate_counterexample :
    get_pr_commits repoC5 prC5 "master" none = ["S", "S"] ∧
    ¬ (get_pr_commits repoC5 prC5 "master" none).Nodup := by
  exact ⟨by decide, by decide⟩

/-- The driver loop produces one trace entry per backport marker: no
marker is dropped, whatever the per-target outcomes are. -/
theorem process_backports_length (envs : Nat → TargetEnv) (pr : PullRequest)
    (commits : List String) :
    ∀ (labels : List String) (i : Nat) (prev : Option BackportPR),
      (process_backports envs pr commits labels i prev).length = labels.length := by
  intro labels
  induction labels with
  | nil => intro i prev; rfl
  | cons l rest ih =>
    intro i prev
    simp only [process_backports, List.length_cons, ih]

/-- Step lemma for a successful predecessor: when the entry at position j
produced a pull request p, the entry at position j+1 was run on the
commit identifiers recorded on p. -/
theorem process_backports_step_success (envs : Nat → TargetEnv) (pr : PullRequest)
    (commits : List String) :
    ∀ (labels : List String) (i : Nat) (prev : Option BackportPR) (j : Nat)
      (a b : TargetRun) (p : BackportPR),
      (process_backports envs pr commits labels i prev)[j]? = some a →
      (process_backports envs pr commits labels i prev)[j + 1]? = some b →
      a.result = some p →
      b.usedCommits = get_commits_from_newer_release p := by
  intro labels
  induction labels with
  | nil =>
    intro i prev j a b p ha _ _
    simp [process_backports] at ha
  | cons l rest ih =>
    intro i prev j a b p ha hb hp
    simp only [process_backports] at ha hb
    cases j with
    | zero =>
      rw [List.getElem?_cons_zero, Option.some.injEq] at ha
      rw [List.getElem?_cons_succ] at hb
      subst ha
      simp only at hp
      rw [hp] at hb
      cases rest with
      | nil => simp [process_backports] at hb
      | cons r rs =>
        simp only [process_backports, List.getElem?_cons_zero, Option.some.injEq,
          Nat.succ_pos, if_true] at hb
        rw [← hb]
    | succ j' =>
      rw [List.getElem?_cons_succ] at ha hb
      exact ih (i + 1) _ j' a b p ha hb hp

/-- Step lemma for a failed predecessor: when the entry at position j
produced no pull request, the entry at position j+1 was run on exactly
the commit list the failed entry itself was run on (the state carrying
the previous backport is not updated on failure). -/
theorem process_backports_step_failure (envs : Nat → TargetEnv) (pr : PullRequest)
    (commits : List String) :
    ∀ (labels : List String) (i : Nat) (prev : Option BackportPR),
      (0 < i ∨ prev = none) →
      ∀ (j : Nat) (a b : TargetRun),
      (process_backports envs pr commits labels i prev)[j]? = some a →
      (process_backports envs pr commits labels i prev)[j + 1]? = some b →
      a.result = none →
      b.usedCommits = a.usedCommits := by
  intro labels
  induction labels with
  | nil =>
    intro i prev _ j a b ha _ _
    simp [process_backports] at ha
  | cons l rest ih =>
    intro i prev hip j a b ha hb hp
    simp only [process_backports] at ha hb
    cases j with
    | zero =>
      rw [List.getElem?_cons_zero, Option.some.injEq] at ha
      rw [List.getElem?_cons_succ] at hb
      subst ha
      simp only at hp
      rw [hp] at hb
      cases rest with
      | nil => simp [process_backports] at hb
      | cons r rs =>
        simp only [process_backports, List.getElem?_cons_zero, Option.some.injEq,
          Nat.succ_pos, if_true] at hb
        rw [← hb]
        cases prev with
        | none => rfl
        | some q =>
          rcases hip with hi | hne
          · simp [hi]
          · exact absurd hne (by simp)
    | succ j' =>
      rw [List.getElem?_cons_succ] at ha hb
      exact ih (i + 1) _ (Or.inl (Nat.succ_pos i)) j' a b ha hb hp

/-- The first processed target is always run on the commit list passed to
the driver loop. -/
theorem run_backports_head_used (envs : Nat → TargetEnv) (pr : PullRequest)
    (commits : List String) (l : String) (rest : List String) :
    ((run_backports envs pr commits (l :: rest))[0]?.map TargetRun.usedCommits) =
      some commits := by
  simp [run_backports, process_backports]

/-- C1 counterexample: with three targets of which the one at position 1
fails, the target at position 2 is not skipped: backport is invoked for
it and even produces a pull request, and its input is the commit set
recorded on the BackportRun of the earlier target at position 0 (the
identifiers A, X), stale state rather than a skip. -/
theorem C1_skip_after_failure_counterexample :
    ((run_backports envsC1 basePR ["A"]
        ["backport/5.4", "backport/5.3", "backport/5.2"])[1]?.map TargetRun.result) =
      some none ∧
    ((run_backports envsC1 basePR ["A"]
        ["backport/5.4", "backport/5.3", "backport/5.2"])[2]?.map TargetRun.usedCommits) =
      some ["A", "X"] ∧
    ((run_backports envsC1 basePR ["A"]
        ["backport/5.4", "backport/5.3", "backport/5.2"])[2]?.map
          (fun r => r.result.isSome)) = some true ∧
    ((run_backports envsC1 basePR ["A"]
        ["backport/5.4", "backport/5.3", "backport/5.2"])[0]?.map
          (fun r => r.result.map BackportPR.commits)) =
      some (some [{ sha := "A", message := "", parents := [] },
                  { sha := "X", message := "", parents := [] }]) :=
  ⟨by decide, by decide, by decide, by decide⟩

/-- C1 as amended: after a target that produced no BackportRun, the next
target is not skipped; the loop still attempts it, one trace entry per
marker, and it is run on exactly the commit list the failed target was
run on (the original commit set when no earlier target succeeded, or the
stale commit set of the most recent successful target). -/
theorem C1_failed_target_not_skipped (envs : Nat → TargetEnv) (pr : PullRequest)
    (commits : List String) (sorted_labels : List String) :
    (run_backports envs pr commits sorted_labels).length = sorted_labels.length ∧
    ∀ (j : Nat) (a b : TargetRun),
      (run_backports envs pr commits sorted_labels)[j]? = some a →
      (run_backports envs pr commits sorted_labels)[j + 1]? = some b →
      a.result = none →
      b.usedCommits = a.usedCommits :=
  ⟨process_backports_length envs pr commits sorted_labels 0 none,
    fun j a b ha hb hn =>
      process_backports_step_failure envs pr commits sorted_labels 0 none
        (Or.inr rfl) j a b ha hb hn⟩

/-- Witness for the amended C1: two targets that both fail; the second is
still attempted and reuses the input of the first. -/
theorem C1_failed_target_not_skipped_witness :
    (run_backports envsAllFail basePR ["A"] ["backport/5.2", "backport/5.1"]).length = 2 ∧
    (⟨"backport/5.1", ["A"], none⟩ : TargetRun).usedCommits =
      (⟨"backport/5.2", ["A"], none⟩ : TargetRun).usedCommits :=
  ⟨(C1_failed_target_not_skipped envsAllFail basePR ["A"]
      ["backport/5.2", "backport/5.1"]).1,
    (C1_failed_target_not_skipped envsAllFail basePR ["A"]
      ["backport/5.2", "backport/5.1"]).2 0
      ⟨"backport/5.2", ["A"], none⟩ ⟨"backport/5.1", ["A"], none⟩
      (by decide) (by decide) rfl⟩

/-- C2: in the per-pull-request pipeline the first target is run on the
commit set returned by get_pr_commits, and whenever the target at some
position produced a BackportRun p, the next target is run on exactly the
commit identifiers recorded on p, in order; consequently every commit of
p, including a conflict-resolution commit absent from the original
change, appears in the input of the next target. -/
theorem C2_chained_commit_sets (repo : Repo) (envs : Nat → TargetEnv) (pr : PullRequest)
    (stable_branch : String) (start_commit : Option String)
    (backport_labels : List String) :
    (sort_backport_labels backport_labels ≠ [] →
      ((main_process_pr repo envs pr stable_branch start_commit backport_labels)[0]?.map
        TargetRun.usedCommits) =
        some (get_pr_commits repo pr stable_branch start_commit)) ∧
    ∀ (i : Nat) (a b : TargetRun) (p : BackportPR),
      (main_process_pr repo envs pr stable_branch start_commit backport_labels)[i]? = some a →
      (main_process_pr repo envs pr stable_branch start_commit backport_labels)[i + 1]? = some b →
      a.result = some p →
      b.usedCommits = get_commits_from_newer_release p ∧
      ∀ c ∈ p.commits, c.sha ∈ b.usedCommits := by
  constructor
  · intro hne
    cases hs : sort_backport_labels backport_labels with
    | nil => exact absurd hs hne
    | cons l rest =>
      unfold main_process_pr
      rw [hs]
      exact run_backports_head_used envs pr _ l rest
  · intro i a b p ha hb hp
    have heq := process_backports_step_success envs pr
      (get_pr_commits repo pr stable_branch start_commit)
      (sort_backport_labels backport_labels) 0 none i a b p ha hb hp
    refine ⟨heq, fun c hc => ?_⟩
    rw [heq]
    show c.sha ∈ p.commits.map (fun commit => commit.sha)
    exact List.mem_map_of_mem _ hc

/-- Witness for C2: both targets succeed; the second target is run on the
commit X recorded on the first backport pull request, which was not in
the original commit set (the single identifier M). -/
theorem C2_chained_commit_sets_witness :
    ((⟨"backport/5.1", ["X"], some bp1C2⟩ : TargetRun).usedCommits =
      get_commits_from_newer_release bp0C2) ∧
    ∀ c ∈ bp0C2.commits,
      c.sha ∈ (⟨"backport/5.1", ["X"], some bp1C2⟩ : TargetRun).usedCommits :=
  (C2_chained_commit_sets repoMulti envsC2 basePR "master" none
      ["backport/5.2", "backport/5.1"]).2 0
    ⟨"backport/5.2", ["M"], some bp0C2⟩ ⟨"backport/5.1", ["X"], some bp1C2⟩ bp0C2
    (by decide) (by decide) rfl

/-- Collecting the matching candidates is filtering the promotion window
by the title test and projecting to identifiers. -/
theorem filterMap_match_eq (T : String) :
    ∀ l : List Commit,
      l.filterMap (fun pc => if strStartsWith pc.message T then some pc.sha else none) =
        (l.filter (fun pc => strStartsWith pc.message T)).map Commit.sha := by
  intro l
  induction l with
  | nil => rfl
  | cons x xs ih =>
    cases hx : strStartsWith x.message T <;>
      simp [List.filterMap_cons, List.filter_cons, hx, ih]

/-- A title matched by exactly one candidate contributes exactly that
candidate identifier. -/
theorem matches_singleton (promoted : List Commit) (T : String)
    (hc : promoted.countP (fun pc => strStartsWith pc.message T) = 1) :
    ∃ pc ∈ promoted, strStartsWith pc.message T = true ∧
      promoted.filterMap (fun x => if strStartsWith x.message T then some x.sha else none) =
        [pc.sha] := by
  have hlen : (promoted.filter (fun pc => strStartsWith pc.message T)).length = 1 := by
    rw [← List.countP_eq_length_filter]
    exact hc
  obtain ⟨x, hx⟩ := List.length_eq_one.mp hlen
  have hmem : x ∈ promoted.filter (fun pc => strStartsWith pc.message T) := by
    rw [hx]
    exact List.mem_cons_self x []
  obtain ⟨hxl, hpx⟩ := List.mem_filter.mp hmem
  refine ⟨x, hxl, hpx, ?_⟩
  rw [filterMap_match_eq, hx]
  rfl

/-- When every authored commit title is matched by exactly one candidate,
the collected identifiers correspond one to one, in order, to the
authored commits. -/
theorem forall2_flatMap_of_unique (promoted : List Commit) :
    ∀ cs : List Commit,
      (∀ c ∈ cs, promoted.countP
        (fun pc => strStartsWith pc.message (firstLine c.message)) = 1) →
      List.Forall₂
        (fun c s => ∃ pc ∈ promoted,
          strStartsWith pc.message (firstLine c.message) = true ∧ s = pc.sha)
        cs
        (cs.flatMap (fun commit => promoted.filterMap (fun promoted_commit =>
          if strStartsWith promoted_commit.message (firstLine commit.message) then
            some promoted_commit.sha
          else
            none))) := by
  intro cs
  induction cs with
  | nil => intro _; exact List.Forall₂.nil
  | cons c cs ih =>
    intro h
    rw [List.flatMap_cons]
    obtain ⟨pc, hmem, hmatch, heq⟩ := matches_singleton promoted (firstLine c.message)
      (h c (List.mem_cons_self c cs))
    rw [heq]
    exact List.Forall₂.cons ⟨pc, hmem, hmatch, rfl⟩
      (ih (fun x hx => h x (List.mem_cons_of_mem c hx)))

/-- When no candidate matches more than one authored commit and the
candidate identifiers are distinct, the per-commit match lists are
pairwise disjoint. -/
theorem disjoint_matches_of_unique (promoted : List Commit)
    (hshas : (promoted.map Commit.sha).Nodup) :
    ∀ cs : List Commit,
      (∀ pc ∈ promoted,
        cs.countP (fun c => strStartsWith pc.message (firstLine c.message)) ≤ 1) →
      List.Pairwise
        (Function.onFun List.Disjoint (fun commit =>
          promoted.filterMap (fun promoted_commit =>
            if strStartsWith promoted_commit.message (firstLine commit.message) then
              some promoted_commit.sha
            else
              none)))
        cs := by
  intro cs
  induction cs with
  | nil => intro _; exact List.Pairwise.nil
  | cons c cs ih =>
    intro h
    rw [List.pairwise_cons]
    constructor
    · intro c' hc' s hs hs'
      simp only [] at hs hs'
      rw [filterMap_match_eq] at hs hs'
      obtain ⟨pc1, hpc1, hsha1⟩ := List.mem_map.mp hs
      obtain ⟨pc2, hpc2, hsha2⟩ := List.mem_map.mp hs'
      obtain ⟨hpc1l, hm1⟩ := List.mem_filter.mp hpc1
      obtain ⟨hpc2l, hm2⟩ := List.mem_filter.mp hpc2
      have hnd : promoted.Nodup := List.Nodup.of_map Commit.sha hshas
      have hinj := (List.nodup_map_iff_inj_on hnd).mp hshas
      have hpc : pc1 = pc2 := hinj pc1 hpc1l pc2 hpc2l (by rw [hsha1, hsha2])
      subst hpc
      have hcount := h pc1 hpc1l
      rw [List.countP_cons, if_pos hm1] at hcount
      have hpos : 0 < cs.countP (fun x => strStartsWith pc1.message (firstLine x.message)) :=
        List.countP_pos_iff.mpr ⟨c', hc', hm2⟩
      omega
    · exact ih (fun pc hpc => by
        have hx := h pc hpc
        rw [List.countP_cons] at hx
        omega)

/-- C4: for a merged change whose merge commit has exactly one parent,
with authored commits of pairwise-distinct first lines each matched by
exactly one candidate of the promotion window, the resolver returns
exactly one identifier per authored commit, in the authored order, each
being the identifier of the matching candidate. -/
theorem C4_squash_merge_title_recovery (repo : Repo) (pr : PullRequest)
    (stable_branch : String) (start_commit : Option String)
    (hm : pr.merged = true)
    (hp : (repo.get_commit pr.merge_commit_sha).parents.length = 1)
    (hdistinct : (pr.commits.map (fun c => firstLine c.message)).Nodup)
    (hone : ∀ c ∈ pr.commits,
      (promotion_window repo stable_branch start_commit).countP
        (fun pc => strStartsWith pc.message (firstLine c.message)) = 1) :
    (get_pr_commits repo pr stable_branch start_commit).length = pr.commits.length ∧
    List.Forall₂
      (fun c s => ∃ pc ∈ promotion_window repo stable_branch start_commit,
        strStartsWith pc.message (firstLine c.message) = true ∧ s = pc.sha)
      pr.commits (get_pr_commits repo pr stable_branch start_commit) := by
  have hget : get_pr_commits repo pr stable_branch start_commit =
      pr.commits.flatMap (fun commit =>
        (promotion_window repo stable_branch start_commit).filterMap (fun promoted_commit =>
          if strStartsWith promoted_commit.message (firstLine commit.message) then
            some promoted_commit.sha
          else
            none)) := by
    simp [get_pr_commits, hm, hp]
  have h2 := forall2_flatMap_of_unique (promotion_window repo stable_branch start_commit)
    pr.commits hone
  rw [hget]
  exact ⟨(List.Forall₂.length_eq h2).symm, h2⟩

/-- Witness for C4: a squash merge of two authored commits, each matched
by exactly one promoted candidate. -/
theorem C4_squash_merge_title_recovery_witness :
    prC4.merged = true ∧
    (repoC4.get_commit prC4.merge_commit_sha).parents.length = 1 ∧
    (prC4.commits.map (fun c => firstLine c.message)).Nodup ∧
    (∀ c ∈ prC4.commits,
      (promotion_window repoC4 "master" none).countP
        (fun pc => strStartsWith pc.message (firstLine c.message)) = 1) ∧
    ((get_pr_commits repoC4 prC4 "master" none).length = prC4.commits.length ∧
      List.Forall₂
        (fun c s => ∃ pc ∈ promotion_window repoC4 "master" none,
          strStartsWith pc.message (firstLine c.message) = true ∧ s = pc.sha)
        prC4.commits (get_pr_commits repoC4 prC4 "master" none)) :=
  ⟨rfl, by decide, by decide, by decide,
    C4_squash_merge_title_recovery repoC4 prC4 "master" none rfl (by decide) (by decide)
      (by decide)⟩

/-- C5 as amended: the resolver performs no deduplication, so for a
merged change the returned identifiers are duplicate-free only under the
extra assumptions that the promotion-window candidates have pairwise
distinct identifiers and that no candidate message prefix-matches the
first lines of more than one of the authored commits; when one candidate
matches several commits, its identifier occurs once per match. -/
theorem C5_amended_no_duplicates (repo : Repo) (pr : PullRequest)
    (stable_branch : String) (start_commit : Option String)
    (hm : pr.merged = true)
    (hshas : ((promotion_window repo stable_branch start_commit).map Commit.sha).Nodup)
    (hone : ∀ pc ∈ promotion_window repo stable_branch start_commit,
      pr.commits.countP (fun c => strStartsWith pc.message (firstLine c.message)) ≤ 1) :
    (get_pr_commits repo pr stable_branch start_commit).Nodup := by
  by_cases hp : (repo.get_commit pr.merge_commit_sha).parents.length > 1
  · simp [get_pr_commits, hm, hp]
  · have hget : get_pr_commits repo pr stable_branch start_commit =
        pr.commits.flatMap (fun commit =>
          (promotion_window repo stable_branch start_commit).filterMap (fun promoted_commit =>
            if strStartsWith promoted_commit.message (firstLine commit.message) then
              some promoted_commit.sha
            else
              none)) := by
      simp [get_pr_commits, hm, hp]
    rw [hget, List.nodup_flatMap]
    constructor
    · intro c hc
      rw [filterMap_match_eq]
      exact List.Nodup.sublist (List.Sublist.map Commit.sha (List.filter_sublist _)) hshas
    · exact disjoint_matches_of_unique _ hshas pr.commits hone

/-- Witness for the amended C5: the squash-merge scenario with distinct
candidate identifiers, each matching one commit, yields a duplicate-free
commit set. -/
theorem C5_amended_no_duplicates_witness :
    prC4.merged = true ∧
    ((promotion_window repoC4 "master" none).map Commit.sha).Nodup ∧
    (∀ pc ∈ promotion_window repoC4 "master" none,
      prC4.commits.countP (fun c => strStartsWith pc.message (firstLine c.message)) ≤ 1) ∧
    (get_pr_commits repoC4 prC4 "master" none).Nodup :=
  ⟨rfl, by decide, by decide,
    C5_amended_no_duplicates repoC4 prC4 "master" none rfl (by decide) (by decide)⟩
